import Mathlib

/-!
Verification development for the batch_audio_spectrogram program
(src/main.py, src/spectrogram.py, src/metadata_parser.py).

Modelling conventions: Python strings are Lean `String` (logically a
list of characters), Python ints are `ℤ`/`ℕ`, Python floats are exact
rationals `ℚ` in the plotting/driver layer and reals `ℝ` in the
spectral layer (librosa's stft and amplitude_to_db), numpy arrays are
lists.  Fallible Python code returns `Except PyErr`.
-/

/-- Python `s.replace(".", "_")` on a `str` receiver: replaces every
occurrence of the single character `.` by `_`. -/
def pyReplaceDots (s : String) : String :=
  String.mk (s.data.map fun c => if c = '.' then '_' else c)

/-- Python `int(q)` applied to a float: truncation toward zero. -/
def pyInt (q : ℚ) : ℤ :=
  if 0 ≤ q then ⌊q⌋ else ⌈q⌉

/-- Python `a % b` on floats: floored modulo, `a - b * floor (a / b)`. -/
def pyMod (a b : ℚ) : ℚ := a - b * ⌊a / b⌋

/-- `np.arange(0, stop, step)` for `step > 0`: the values `i * step` for
`0 ≤ i < ⌈stop / step⌉`, over exact rationals. -/
def arange (stop step : ℚ) : List ℚ :=
  (List.range ⌈stop / step⌉₊).map fun i : ℕ => (i : ℚ) * step

/-- The Python format `{n:02d}`: zero-pad an integer to width two. -/
def fmt02d (z : ℤ) : String :=
  if 0 ≤ z ∧ z < 10 then "0" ++ toString z else toString z

/-- The Python format `{f:.0f}` (round to zero decimals).  Every value it
is applied to in the program is an exact integer (a multiple of 5), where
Python's round-half-to-even and `round` agree. -/
def fmt0f (q : ℚ) : String := toString (round q)

/-- One x-axis tick label of `__set_x_axis__`:
`f"{int(t/60):02d}:{int(t%60):02d}"`. -/
def timeTickLabel (t : ℚ) : String :=
  fmt02d (pyInt (t / 60)) ++ ":" ++ fmt02d (pyInt (pyMod t 60))

/-- A value held in `Spectrogram.audio_file`: either a Python `str`
(its initial value, and the single-file usage documented in
spectrogram.py) or a `pathlib.Path` (what `main`'s batch loop passes). -/
inductive FileRef
  | str (s : String)
  | path (p : String)
deriving DecidableEq

/-- Python `str(...)` / f-string interpolation of the stored object
(`str` of a `pathlib.Path` is its path string). -/
def FileRef.display : FileRef → String
  | .str s => s
  | .path p => p

/-- The Python exceptions the modelled code can raise: the `TypeError`
from calling `pathlib.Path.replace` with two arguments, and a decode
failure raised by `librosa.load` on an unreadable/corrupt file. -/
inductive PyErr
  | typeError
  | decodeError
deriving DecidableEq

/-- The state of class `Spectrogram` that the plotting and driver code
reads.  The derived arrays `self.spectrogram` / `self.db_spectrogram`
are modelled separately, by `stftMatrix` and `amplitude_to_db` in the
real-valued spectral layer below. -/
structure Spectrogram where
  audio_file : FileRef
  audio : List ℚ
  sampling_rate : ℚ
deriving DecidableEq

/-- `Spectrogram.__init__`: empty path string, empty audio, rate 0. -/
def spectrogramInit : Spectrogram :=
  { audio_file := .str "", audio := [], sampling_rate := 0 }

/-- `len(self.audio) / self.sampling_rate`: the duration in seconds. -/
def duration (len : ℕ) (sr : ℚ) : ℚ := (len : ℚ) / sr

/-- `__set_x_axis__` tick positions:
`np.arange(0, len(audio)/sr, 60).tolist() + [len(audio)/sr]`. -/
def xtickPositions (len : ℕ) (sr : ℚ) : List ℚ :=
  arange (duration len sr) 60 ++ [duration len sr]

/-- `__set_x_axis__` tick labels: `mm:ss` over the same list. -/
def xtickLabels (len : ℕ) (sr : ℚ) : List String :=
  (xtickPositions len sr).map timeTickLabel

/-- `__set_y_axis__` tick positions: `np.arange(0, sr/2, 5000) + [sr/2]`. -/
def ytickPositions (sr : ℚ) : List ℚ :=
  arange (sr / 2) 5000 ++ [sr / 2]

/-- `__set_y_axis__` tick labels:
`[f"{f:.0f}" for f in np.arange(0, sr/2000, 5)] + [str(int(sr/2000))]`. -/
def ytickLabels (sr : ℚ) : List String :=
  (arange (sr / 2000) 5).map fmt0f ++ [toString (pyInt (sr / 2000))]

/-- The default output name `save_png` derives for a `str` path `s`:
`f"{s.replace('.', '_')}_spectrogram.png"`. -/
def defaultPngName (s : String) : String :=
  pyReplaceDots s ++ "_spectrogram.png"

/-- Everything `save_png` writes into the process-wide matplotlib state
before (attempting) `plt.savefig`, plus the file it saved to, if any. -/
structure PlotState where
  figsize : ℚ × ℚ
  suptitle : String
  title : String
  xlabel : String
  ylabel : String
  xticks : List ℚ × List String
  yticks : List ℚ × List String
  ylim : ℚ × ℚ
  imshowOrigin : String
  imshowCmap : String
  imshowAspect : String
  imshowExtent : ℚ × ℚ × ℚ × ℚ
  colorbarFormat : String
  savedTo : Option String
deriving DecidableEq

/-- The argument of `plt.savefig` in `save_png`:
`filename if filename != "" else f"{self.audio_file.replace('.', '_')}_spectrogram.png"`.
On a `str` receiver the replacement succeeds; `pathlib.Path.replace`
takes a single `target` argument, so on a `Path` receiver the call with
two arguments raises `TypeError`. -/
def savefigName (audio_file : FileRef) (filename : String) : Except PyErr String :=
  if filename ≠ "" then .ok filename
  else match audio_file with
    | .str s => .ok (defaultPngName s)
    | .path _ => .error .typeError

/-- `Spectrogram.save_png`: builds the figure (figsize, titles from
`__set_titles__`, axes from `__set_x_axis__`/`__set_y_axis__`, image and
colorbar from `__set_graphics__`), then evaluates the `savefig`
argument; a raised `TypeError` aborts before any file is written. -/
def save_png (sp : Spectrogram) (filename : String) : PlotState × Except PyErr Unit :=
  let ps : PlotState := {
    figsize := (14, 7)
    suptitle := "'" ++ sp.audio_file.display ++ "' spectrogram"
    title := "Encoding: 1, Bitrate: 2, Sampling Rate: 3, Channels: 4"
    xlabel := "Time"
    ylabel := "Frequency (kHz)"
    xticks := (xtickPositions sp.audio.length sp.sampling_rate,
               xtickLabels sp.audio.length sp.sampling_rate)
    yticks := (ytickPositions sp.sampling_rate, ytickLabels sp.sampling_rate)
    ylim := (0, sp.sampling_rate / 2)
    imshowOrigin := "lower"
    imshowCmap := "inferno"
    imshowAspect := "auto"
    imshowExtent := (0, duration sp.audio.length sp.sampling_rate,
                     0, sp.sampling_rate / 2)
    colorbarFormat := "%+2.0f dB"
    savedTo := none }
  match savefigName sp.audio_file filename with
  | .ok n => ({ ps with savedTo := some n }, .ok ())
  | .error e => (ps, .error e)

/-- A directory entry as `main` sees it: parent directory, final name
component, whether it is a regular file, and the outcome of
`librosa.load` on it (`none` models a decode failure; `some (buf, sr)`
the decoded buffer and native sample rate). -/
structure FsEntry where
  dir : String
  name : String
  isFile : Bool
  load : Option (List ℚ × ℚ)
deriving DecidableEq

/-- The resolved path string of an entry. -/
def FsEntry.path (f : FsEntry) : String := f.dir ++ "/" ++ f.name

/-- `pathlib.PurePath.suffix` of a final name component: the part from
the last dot on, unless that dot is the first or last character. -/
def pySuffix (name : String) : String :=
  match name.data.reverse.findIdx? (fun c => c = '.') with
  | none => ""
  | some j =>
    let i := name.data.length - 1 - j
    if 0 < i ∧ i < name.data.length - 1 then String.mk (name.data.drop i) else ""

/-- Python `str.lower()` (only ASCII extensions occur here). -/
def pyLower (s : String) : String := String.mk (s.data.map Char.toLower)

/-- The extension filter in `main`'s loop:
`file.suffix.lower() in (".m4a", ".mp3", ".flac", ".wav")`. -/
def supportedExt (f : FsEntry) : Bool :=
  [".m4a", ".mp3", ".flac", ".wav"].contains (pyLower (pySuffix f.name))

/-- The command-line path after `pathlib.Path(...).resolve()`: an
existing regular file, an existing directory with its entries in
`iterdir` order, or a path that is neither. -/
inductive PathInput
  | file (f : FsEntry)
  | dir (children : List FsEntry)
  | missing

/-- `get_file_list_from_path`: a file yields itself (resolved); a
directory yields its regular-file entries in `iterdir` order
(non-recursively); anything else yields the empty list. -/
def get_file_list_from_path : PathInput → List FsEntry
  | .file f => [f]
  | .dir children => children.filter fun f => f.isFile
  | .missing => []

/-- `Spectrogram.create`: stores the argument as given in `audio_file`
(in the batch loop a `pathlib.Path`), then `librosa.load` fills
`audio`/`sampling_rate`; a decode failure raises. -/
def Spectrogram.create (sp : Spectrogram) (f : FsEntry) : Except PyErr Spectrogram :=
  match f.load with
  | none => .error .decodeError
  | some (a, sr) =>
    .ok { sp with audio_file := .path f.path, audio := a, sampling_rate := sr }

/-- The `for file in file_list:` loop of `main`, threading the single
`Spectrogram` object.  Returns the list of `Processing file:` log lines
and the outcome.  There is no `try`/`except`, so the first exception
aborts the loop; `main` itself returns `None`, never a count. -/
def mainLoop (sp : Spectrogram) : List FsEntry → List String × Except PyErr Unit
  | [] => ([], .ok ())
  | f :: rest =>
    if supportedExt f then
      match sp.create f with
      | .error e => ([f.path], .error e)
      | .ok sp2 =>
        match (save_png sp2 "").2 with
        | .error e => ([f.path], .error e)
        | .ok _ =>
          let r := mainLoop sp2 rest
          (f.path :: r.1, r.2)
    else mainLoop sp rest

/-- `main`: resolve the argument, collect the file list, run the loop. -/
def mainExec (p : PathInput) : List String × Except PyErr Unit :=
  mainLoop spectrogramInit (get_file_list_from_path p)

/-- One ffprobe stream dict, with the fields `MetadataParser` reads. -/
structure MediaInfo where
  codec_long_name : Option String
  bit_rate : Option ℕ
  bits_per_raw_sample : Option ℕ
  channel_layout : Option String
  sample_rate : Option ℕ
  duration : Option ℚ
deriving DecidableEq

/-- The value reported by `__get_bitrate_or_bits_per_sample`, with the
string rendering abstracted to the numeric value and its unit: `kbps v`
renders as `f"{v} kb/s"` (Python float `str`), `bit b` as
`f"{b} bit"`. -/
inductive RateOrDepth
  | kbps (v : ℚ)
  | bit (b : Option ℕ)
deriving DecidableEq

/-- `__get_bitrate_or_bits_per_sample`: when `bit_rate` is present,
`int(media_info["bit_rate"]) / 1000` — Python float (true) division —
in kb/s; otherwise `bits_per_raw_sample` in bits. -/
def getBitrateOrBitsPerSample (m : MediaInfo) : RateOrDepth :=
  match m.bit_rate with
  | some r => .kbps ((r : ℚ) / 1000)
  | none => .bit m.bits_per_raw_sample

/-- Modelled from the spec, for comparison with the code's
`getBitrateOrBitsPerSample`: "bitrate is reported in kb/s (integer
division of bits/sec by 1000) when present; otherwise bit-depth". -/
def specBitrateOrBitsPerSample (m : MediaInfo) : RateOrDepth :=
  match m.bit_rate with
  | some r => .kbps ((r / 1000 : ℕ) : ℚ)
  | none => .bit m.bits_per_raw_sample

/-- Modelled from the spec, for comparison with the code's
`defaultPngName`: output naming
`<parent_dir>/<stem>_<original_extension_without_dot>_spectrogram.png`. -/
def specOutputPath (dir stem ext : String) : String :=
  dir ++ "/" ++ stem ++ "_" ++ ext ++ "_spectrogram.png"

/-! ### The real-valued spectral layer

`Spectrogram.create` computes `librosa.stft(self.audio)` and
`librosa.amplitude_to_db(abs(...), ref=np.max)`.  These are embedded
over `ℝ` with librosa's default parameters: `n_fft = 2048`,
`hop_length = 512`, periodic Hann window, `center=True` with
constant (zero) padding of `n_fft // 2` samples on each side, and for
the decibel conversion `amin = 1e-5` (in amplitude; librosa squares the
magnitudes and uses `amin² = 1e-10` in power, which yields exactly the
amplitude-domain floor below) and `top_db = 80`. -/

/-- librosa's default hop length, `n_fft // 4 = 512`. -/
def hopLength : ℕ := 512

/-- The number of stft time frames for a buffer of length `len`:
the padded signal has `len + 2 * (n_fft // 2)` samples, giving
`1 + (len + 2048 - 2048) / 512` frames.  An empty buffer still yields
one (all-zero-windowed) frame. -/
def stftNumFrames (len : ℕ) : ℕ := 1 + len / hopLength

/-- The center-padded signal: `n_fft // 2 = 1024` zeros, then the
buffer, then zeros. -/
noncomputable def paddedSample (y : List ℝ) (i : ℕ) : ℝ :=
  if i < 1024 then 0 else y.getD (i - 1024) 0

/-- The periodic Hann window of length 2048 (librosa's default). -/
noncomputable def hannWindow (n : ℕ) : ℝ :=
  1 / 2 - 1 / 2 * Real.cos (2 * Real.pi * n / 2048)

/-- `abs(librosa.stft(y))[k, t]`: the magnitude of the windowed DFT of
frame `t` at frequency bin `k`. -/
noncomputable def stftMag (y : List ℝ) (k t : ℕ) : ℝ :=
  Real.sqrt
    ((∑ n ∈ Finset.range 2048,
        hannWindow n * paddedSample y (t * hopLength + n) *
          Real.cos (2 * Real.pi * k * n / 2048)) ^ 2 +
      (∑ n ∈ Finset.range 2048,
        hannWindow n * paddedSample y (t * hopLength + n) *
          Real.sin (2 * Real.pi * k * n / 2048)) ^ 2)

/-- `abs(librosa.stft(y))` as a `(1 + n_fft/2) × frames` list matrix:
rows are the 1025 frequency bins, columns the time frames. -/
noncomputable def stftMatrix (y : List ℝ) : List (List ℝ) :=
  (List.range 1025).map fun k =>
    (List.range (stftNumFrames y.length)).map fun t => stftMag y k t

/-- `np.max` over the entries of a nonempty list (the program never
applies it to an empty array; the default is irrelevant). -/
noncomputable def npMax (l : List ℝ) : ℝ := l.foldl max (l.headD 0)

/-- librosa's `amin` floor for `amplitude_to_db`, in amplitude units. -/
noncomputable def amin : ℝ := 1 / 100000

/-- One entry of the decibel conversion with reference `M`:
`20*log10(max(amin, x)) - 20*log10(max(amin, M))`. -/
noncomputable def dbOf (M x : ℝ) : ℝ :=
  20 * Real.logb 10 (max amin x) - 20 * Real.logb 10 (max amin M)

/-- `librosa.amplitude_to_db(S, ref=np.max)`: convert every magnitude to
decibels referenced to the matrix maximum, then clamp from below at
`(matrix maximum of the decibel values) - top_db` with `top_db = 80`. -/
noncomputable def amplitude_to_db (S : List (List ℝ)) : List (List ℝ) :=
  let L := S.map fun row => row.map (dbOf (npMax S.flatten))
  L.map fun row => row.map fun x => max x (npMax L.flatten - 80)

/-- The spectral part of `Spectrogram.create`:
`librosa.amplitude_to_db(abs(librosa.stft(audio)), ref=np.max)`. -/
noncomputable def compute (y : List ℝ) : List (List ℝ) :=
  amplitude_to_db (stftMatrix y)

/-- Modelled from the spec, for comparison with the code's
`amplitude_to_db`: "20*log10(value/reference)" with reference the
matrix maximum, "then clamped to a fixed display range" of [-120, 0]. -/
noncomputable def specDecibelMatrix (S : List (List ℝ)) : List (List ℝ) :=
  S.map fun row => row.map fun x =>
    max (-120) (min 0 (20 * Real.logb 10 (x / npMax S.flatten)))

instance : DecidableEq (Except PyErr Unit) := fun a b =>
  match a, b with
  | .ok (), .ok () => isTrue rfl
  | .ok (), .error _ => isFalse fun h => Except.noConfusion h
  | .error _, .ok () => isFalse fun h => Except.noConfusion h
  | .error e, .error e2 =>
    if h : e = e2 then isTrue (by rw [h]) else isFalse fun hh => h (by injection hh)

/-! ### Helper lemmas -/

theorem pyReplaceDots_append (a b : String) :
    pyReplaceDots (a ++ b) = pyReplaceDots a ++ pyReplaceDots b := by
  apply String.ext
  simp [pyReplaceDots, String.data_append]

theorem pyReplaceDots_of_no_dot (s : String) (h : '.' ∉ s.data) :
    pyReplaceDots s = s := by
  apply String.ext
  show s.data.map _ = s.data
  have hc : ∀ c ∈ s.data, (if c = '.' then '_' else c) = c := by
    intro c hc
    exact if_neg (by rintro rfl; exact h hc)
  rw [List.map_congr_left hc]
  simp

theorem save_png_of_path (sp : Spectrogram) (p : String) (h : sp.audio_file = .path p) :
    (save_png sp "").2 = .error .typeError ∧ (save_png sp "").1.savedTo = none := by
  constructor <;> simp [save_png, savefigName, h]

theorem mainLoop_spec (sp : Spectrogram) (files : List FsEntry) :
    (mainLoop sp files).1 =
      ((files.filter fun f => supportedExt f).map FsEntry.path).take 1 ∧
    ((mainLoop sp files).2 = Except.ok () ↔
      (files.filter fun f => supportedExt f) = []) := by
  induction files generalizing sp with
  | nil => simp [mainLoop]
  | cons f rest ih =>
    cases hsupp : supportedExt f with
    | false => simpa [mainLoop, hsupp, List.filter_cons] using ih sp
    | true =>
      cases hl : f.load with
      | none => simp [mainLoop, hsupp, Spectrogram.create, hl, List.filter_cons]
      | some pair =>
        have hsave := save_png_of_path
          { sp with audio_file := .path f.path, audio := pair.1, sampling_rate := pair.2 }
          f.path rfl
        simp [mainLoop, hsupp, Spectrogram.create, hl, hsave.1, List.filter_cons]

/-! ### Claim theorems -/

/-- C1 (corrected): per-file failures are not caught at the driver level.
`main`'s loop has no `try`/`except`, so the first exception aborts the
run: if any listed file passes the extension filter, the loop ends in an
error (for a decodable file, the `TypeError` raised by `save_png`'s
default-filename handling; otherwise the decode error), the log trace
stops after that first file, and `main` returns `None`, not a count. -/
theorem batch_error_aborts_run (sp : Spectrogram) (files : List FsEntry)
    (h : ∃ f ∈ files, supportedExt f) :
    (∃ e, (mainLoop sp files).2 = Except.error e) ∧
    (mainLoop sp files).1 =
      ((files.filter fun f => supportedExt f).map FsEntry.path).take 1 := by
  obtain ⟨tr, hok⟩ := mainLoop_spec sp files
  refine ⟨?_, tr⟩
  have hne : (files.filter fun f => supportedExt f) ≠ [] := by
    obtain ⟨f, hf, hs⟩ := h
    exact List.ne_nil_of_mem (List.mem_filter.mpr ⟨hf, hs⟩)
  cases hres : (mainLoop sp files).2 with
  | error e => exact ⟨e, rfl⟩
  | ok u => cases u; exact absurd (hok.mp hres) hne

/-- Witness for C1 at a one-file list. -/
theorem batch_error_aborts_run_witness :
    (∃ f ∈ [(⟨"/d", "a.mp3", true, some ([], 2)⟩ : FsEntry)], supportedExt f) ∧
    ((∃ e, (mainLoop spectrogramInit
        [(⟨"/d", "a.mp3", true, some ([], 2)⟩ : FsEntry)]).2 = Except.error e) ∧
      (mainLoop spectrogramInit
        [(⟨"/d", "a.mp3", true, some ([], 2)⟩ : FsEntry)]).1 =
      (([(⟨"/d", "a.mp3", true, some ([], 2)⟩ : FsEntry)].filter
          fun f => supportedExt f).map FsEntry.path).take 1) :=
  ⟨by decide, batch_error_aborts_run spectrogramInit _ (by decide)⟩

/-- C1 counterexample: for a directory with one valid and one corrupt
`.mp3`, the run does not log a failure and proceed to return 1 — it
aborts with a `TypeError` while handling the first (valid) file, and
the second file is never reached. -/
theorem batch_error_counterexample :
    mainExec (.dir [⟨"/d", "good.mp3", true, some ([], 2)⟩,
                    ⟨"/d", "bad.mp3", true, none⟩]) =
      (["/d/good.mp3"], Except.error PyErr.typeError) := by decide

/-- C2 (corrected): for a path whose directory part, stem and extension
are dot-free, the default output name agrees with the spec's
`<parent_dir>/<stem>_<ext>_spectrogram.png` scheme (the code replaces
every dot in the whole path string, so the two differ on dotted
directories or stems). -/
theorem output_naming_amended (dir stem ext : String)
    (h1 : '.' ∉ dir.data) (h2 : '.' ∉ stem.data) (h3 : '.' ∉ ext.data) :
    defaultPngName (dir ++ "/" ++ stem ++ "." ++ ext) = specOutputPath dir stem ext := by
  have hslash : pyReplaceDots "/" = "/" := by decide
  have hdot : pyReplaceDots "." = "_" := by decide
  rw [defaultPngName, pyReplaceDots_append, pyReplaceDots_append, pyReplaceDots_append,
    pyReplaceDots_append, pyReplaceDots_of_no_dot dir h1, pyReplaceDots_of_no_dot stem h2,
    pyReplaceDots_of_no_dot ext h3, hslash, hdot]
  rfl

/-- Witness for C2 at `/music/track.mp3`. -/
theorem output_naming_witness :
    '.' ∉ "/music".data ∧ '.' ∉ "track".data ∧ '.' ∉ "mp3".data ∧
    defaultPngName ("/music" ++ "/" ++ "track" ++ "." ++ "mp3") =
      specOutputPath "/music" "track" "mp3" :=
  ⟨by decide, by decide, by decide,
    output_naming_amended "/music" "track" "mp3" (by decide) (by decide) (by decide)⟩

/-- C2 counterexample: with a dot in the parent directory the derived
name replaces that dot too, so it is not the spec's
`<parent_dir>/<stem>_<ext>_spectrogram.png`. -/
theorem output_naming_counterexample :
    defaultPngName "/mu.sic/track.mp3" = "/mu_sic/track_mp3_spectrogram.png" ∧
    defaultPngName "/mu.sic/track.mp3" ≠ specOutputPath "/mu.sic" "track" "mp3" := by
  constructor <;> decide

/-- C3 (confirmed): for any batch-processed file that decodes,
`Spectrogram.create` stores the path as given (a `pathlib.Path`), and
the subsequent `save_png` with the default empty filename raises
`TypeError` from `audio_file.replace('.', '_')` (on a `Path` that
method takes a single target argument), so no PNG is written. -/
theorem path_replace_type_error (sp0 : Spectrogram) (f : FsEntry) (a : List ℚ) (sr : ℚ)
    (h : f.load = some (a, sr)) :
    ∃ sp, sp0.create f = Except.ok sp ∧ sp.audio_file = .path f.path ∧
      (save_png sp "").2 = Except.error PyErr.typeError ∧
      (save_png sp "").1.savedTo = none := by
  refine ⟨{ sp0 with audio_file := .path f.path, audio := a, sampling_rate := sr },
    by simp [Spectrogram.create, h], rfl, ?_, ?_⟩
  · exact (save_png_of_path _ f.path rfl).1
  · exact (save_png_of_path _ f.path rfl).2

/-- Witness for C3 at a concrete decodable file. -/
theorem path_replace_type_error_witness :
    (⟨"/music", "track.mp3", true, some ([], 44100)⟩ : FsEntry).load = some ([], 44100) ∧
    ∃ sp, spectrogramInit.create ⟨"/music", "track.mp3", true, some ([], 44100)⟩ =
        Except.ok sp ∧
      sp.audio_file = .path (FsEntry.path ⟨"/music", "track.mp3", true, some ([], 44100)⟩) ∧
      (save_png sp "").2 = Except.error PyErr.typeError ∧
      (save_png sp "").1.savedTo = none :=
  ⟨rfl, path_replace_type_error spectrogramInit _ [] 44100 rfl⟩

/-- C6 (corrected): `save_png` does draw a two-line title and axis
labels, but the suptitle is `'<file>' spectrogram`, the subtitle is the
constant placeholder `Encoding: 1, Bitrate: 2, Sampling Rate: 3,
Channels: 4` (the metadata parser is never consulted), and the x label
is `Time`, not `Time (mm:ss)`; only the y label matches the claim. -/
theorem titles_amended (sp : Spectrogram) :
    (save_png sp "").1.suptitle = "'" ++ sp.audio_file.display ++ "' spectrogram" ∧
    (save_png sp "").1.title = "Encoding: 1, Bitrate: 2, Sampling Rate: 3, Channels: 4" ∧
    (save_png sp "").1.xlabel = "Time" ∧
    (save_png sp "").1.ylabel = "Frequency (kHz)" := by
  cases hsf : savefigName sp.audio_file "" <;> simp [save_png, hsf]

/-- C6 counterexample: at a concrete state, the x-axis label written by
`save_png` is not the claimed `Time (mm:ss)`, and the subtitle is the
placeholder rather than any per-file metadata string. -/
theorem titles_counterexample :
    (save_png ⟨FileRef.str "a.mp3", [], 2⟩ "").1.xlabel ≠ "Time (mm:ss)" ∧
    (save_png ⟨FileRef.str "a.mp3", [], 2⟩ "").1.title =
      "Encoding: 1, Bitrate: 2, Sampling Rate: 3, Channels: 4" := by
  constructor <;> decide

/-- C10 (corrected): exactly the regular files whose lowercased
extension is one of `.m4a .mp3 .flac .wav` are selected, non-recursively
and in directory order — but `main` returns `None` rather than a count,
and (because every selected file either fails to decode or hits the
`save_png` `TypeError`) the run aborts at the first selected file, so
the log trace is at most that one file. -/
theorem directory_filter_amended (children : List FsEntry) :
    (mainExec (.dir children)).1 =
      (((children.filter fun f => f.isFile).filter fun f => supportedExt f).map
        FsEntry.path).take 1 ∧
    (((children.filter fun f => f.isFile).filter fun f => supportedExt f) = [] →
      (mainExec (.dir children)).2 = Except.ok ()) ∧
    (((children.filter fun f => f.isFile).filter fun f => supportedExt f) ≠ [] →
      ∃ e, (mainExec (.dir children)).2 = Except.error e) := by
  simp only [mainExec, get_file_list_from_path]
  obtain ⟨tr, hok⟩ := mainLoop_spec spectrogramInit (children.filter fun f => f.isFile)
  refine ⟨tr, fun h => hok.mpr h, fun h => ?_⟩
  cases hres : (mainLoop spectrogramInit (children.filter fun f => f.isFile)).2 with
  | error e => exact ⟨e, rfl⟩
  | ok u => cases u; exact absurd (hok.mp hres) h

/-- Witness for C10 at a directory of 3 supported and 2 unsupported files. -/
theorem directory_filter_witness :
    (mainExec (.dir [⟨"/d", "a.mp3", true, some ([], 2)⟩,
        ⟨"/d", "b.flac", true, some ([], 2)⟩, ⟨"/d", "c.wav", true, some ([], 2)⟩,
        ⟨"/d", "d.txt", true, none⟩, ⟨"/d", "e.jpg", true, none⟩])).1 =
      ((([⟨"/d", "a.mp3", true, some ([], 2)⟩,
          ⟨"/d", "b.flac", true, some ([], 2)⟩, ⟨"/d", "c.wav", true, some ([], 2)⟩,
          ⟨"/d", "d.txt", true, none⟩,
          ⟨"/d", "e.jpg", true, none⟩].filter fun f => f.isFile).filter
            fun f => supportedExt f).map FsEntry.path).take 1 ∧
    ∃ e, (mainExec (.dir [⟨"/d", "a.mp3", true, some ([], 2)⟩,
        ⟨"/d", "b.flac", true, some ([], 2)⟩, ⟨"/d", "c.wav", true, some ([], 2)⟩,
        ⟨"/d", "d.txt", true, none⟩,
        ⟨"/d", "e.jpg", true, none⟩])).2 = Except.error e :=
  ⟨(directory_filter_amended _).1, (directory_filter_amended _).2.2 (by decide)⟩

/-- C10 counterexample: for a directory of 3 valid audio files and 2
unsupported files the run does not process 3 files and return 3 — it
logs only the first supported file and aborts with a `TypeError`
(`main` has no numeric return at all). -/
theorem directory_filter_counterexample :
    mainExec (.dir [⟨"/d", "a.mp3", true, some ([], 2)⟩,
        ⟨"/d", "b.flac", true, some ([], 2)⟩, ⟨"/d", "c.wav", true, some ([], 2)⟩,
        ⟨"/d", "d.txt", true, none⟩, ⟨"/d", "e.jpg", true, none⟩]) =
      (["/d/a.mp3"], Except.error PyErr.typeError) := by decide

theorem arange_mem_lt {stop step x : ℚ} (hstep : 0 < step) (hx : x ∈ arange stop step) :
    x < stop := by
  simp only [arange, List.mem_map, List.mem_range] at hx
  obtain ⟨i, hi, rfl⟩ := hx
  have hq : (i : ℚ) < stop / step := by exact_mod_cast Nat.lt_ceil.mp hi
  calc (i : ℚ) * step < (stop / step) * step := by
        exact mul_lt_mul_of_pos_right hq hstep
    _ = stop := div_mul_cancel₀ _ (ne_of_gt hstep)

theorem arange_pairwise {stop step : ℚ} (hstep : 0 < step) :
    List.Pairwise (· < ·) (arange stop step) := by
  simp only [arange]
  refine List.Pairwise.map _ ?_ (List.pairwise_lt_range _)
  intro a b hab
  exact mul_lt_mul_of_pos_right (by exact_mod_cast hab) hstep

theorem tick_pairwise (stop step : ℚ) (hstep : 0 < step) :
    List.Pairwise (· < ·) (arange stop step ++ [stop]) := by
  rw [List.pairwise_append]
  refine ⟨arange_pairwise hstep, List.pairwise_singleton _ _, ?_⟩
  intro x hx y hy
  simp only [List.mem_singleton] at hy
  subst hy
  exact arange_mem_lt hstep hx

theorem arange_of_nonpos {stop step : ℚ} (hstep : 0 < step) (h : stop ≤ 0) :
    arange stop step = [] := by
  have : ⌈stop / step⌉₊ = 0 := by
    rw [Nat.ceil_eq_zero]
    exact div_nonpos_of_nonpos_of_nonneg h hstep.le
  simp [arange, this]

theorem tick_head (stop step : ℚ) (hstep : 0 < step) (hstop : 0 ≤ stop) :
    (arange stop step ++ [stop]).head? = some 0 := by
  rcases eq_or_lt_of_le hstop with rfl | hpos
  · rw [arange_of_nonpos hstep le_rfl]
    rfl
  · have hne : ⌈stop / step⌉₊ ≠ 0 := (Nat.ceil_pos.mpr (div_pos hpos hstep)).ne'
    obtain ⟨m, hm⟩ := Nat.exists_eq_succ_of_ne_zero hne
    rw [arange, hm, List.range_succ_eq_map]
    simp

/-- C7 (confirmed): with a positive sample rate, both tick-position
lists are strictly increasing, start at 0, and end exactly at the true
axis maximum (the buffer duration for time, Nyquist `sr/2` for
frequency); when the duration is 0 the time axis degenerates to the
single tick `[0]` with no division by zero. -/
theorem axis_calibration (len : ℕ) (sr : ℚ) (h : 0 < sr) :
    List.Pairwise (· < ·) (xtickPositions len sr) ∧
    (xtickPositions len sr).head? = some 0 ∧
    (xtickPositions len sr).getLast? = some (duration len sr) ∧
    (duration len sr = 0 → xtickPositions len sr = [0]) ∧
    List.Pairwise (· < ·) (ytickPositions sr) ∧
    (ytickPositions sr).head? = some 0 ∧
    (ytickPositions sr).getLast? = some (sr / 2) := by
  have hd0 : 0 ≤ duration len sr := div_nonneg (Nat.cast_nonneg _) h.le
  refine ⟨tick_pairwise _ _ (by norm_num), tick_head _ _ (by norm_num) hd0,
    List.getLast?_concat _, ?_, tick_pairwise _ _ (by norm_num),
    tick_head _ _ (by norm_num) (by positivity), List.getLast?_concat _⟩
  intro hdur
  rw [xtickPositions, hdur, arange_of_nonpos (by norm_num) le_rfl]
  rfl

/-- Witness for C7 at a 61-sample buffer with sample rate 1. -/
theorem axis_calibration_witness :
    (0 : ℚ) < 1 ∧
    (List.Pairwise (· < ·) (xtickPositions 61 1) ∧
      (xtickPositions 61 1).head? = some 0 ∧
      (xtickPositions 61 1).getLast? = some (duration 61 1) ∧
      (duration 61 1 = 0 → xtickPositions 61 1 = [0]) ∧
      List.Pairwise (· < ·) (ytickPositions 1) ∧
      (ytickPositions 1).head? = some 0 ∧
      (ytickPositions 1).getLast? = some (1 / 2)) :=
  ⟨by decide, axis_calibration 61 1 (by decide)⟩

/-- C8 (corrected): the `i`-th frequency tick sits at `i * 5000` Hz and
is labeled `5 * i` (its exact value in kHz), and the final tick sits at
the exact Nyquist `sr / 2` but is labeled `int(sr / 2000)` — the
Nyquist in kHz truncated toward zero, not rounded to the nearest
multiple of 1000 Hz; the two label/position lists have equal length. -/
theorem freq_label_amended (sr : ℚ) (h : 0 < sr) :
    ytickPositions sr =
      ((List.range ⌈sr / 10000⌉₊).map fun i : ℕ => (i : ℚ) * 5000) ++ [sr / 2] ∧
    ytickLabels sr =
      ((List.range ⌈sr / 10000⌉₊).map fun i : ℕ => toString (5 * (i : ℤ))) ++
        [toString ⌊sr / 2000⌋] ∧
    (ytickLabels sr).length = (ytickPositions sr).length := by
  have hc1 : sr / 2 / 5000 = sr / 10000 := by rw [div_div]; norm_num
  have hc2 : sr / 2000 / 5 = sr / 10000 := by rw [div_div]; norm_num
  refine ⟨by rw [ytickPositions, arange, hc1], ?_, ?_⟩
  · rw [ytickLabels, arange, hc2]
    congr 1
    · rw [List.map_map]
      refine List.map_congr_left ?_
      intro i hi
      show fmt0f ((i : ℚ) * 5) = toString (5 * (i : ℤ))
      rw [fmt0f]
      congr 1
      have hcast : ((i : ℚ) * 5) = ((5 * (i : ℤ) : ℤ) : ℚ) := by push_cast; ring
      rw [hcast, round_intCast]
    · rw [pyInt, if_pos (by positivity)]
  · rw [ytickLabels, ytickPositions]
    simp [arange, hc1, hc2]

/-- Witness for C8 at the 44100 Hz sample rate of the claim. -/
theorem freq_label_witness :
    (0 : ℚ) < 44100 ∧
    (ytickPositions 44100 =
      ((List.range ⌈(44100 : ℚ) / 10000⌉₊).map fun i : ℕ => (i : ℚ) * 5000) ++
        [(44100 : ℚ) / 2] ∧
    ytickLabels 44100 =
      ((List.range ⌈(44100 : ℚ) / 10000⌉₊).map fun i : ℕ => toString (5 * (i : ℤ))) ++
        [toString ⌊(44100 : ℚ) / 2000⌋] ∧
    (ytickLabels 44100).length = (ytickPositions 44100).length) :=
  ⟨by decide, freq_label_amended 44100 (by decide)⟩

/-- C8 counterexample: at sample rate 3900 Hz (Nyquist 1950 Hz) the
final tick label is `1` (truncation of 1.95 kHz), while rounding the
Nyquist to the nearest multiple of 1000 Hz would give 2000 Hz, label
`2`. -/
theorem freq_label_counterexample :
    (ytickLabels 3900).getLast? = some "1" ∧
    toString (round ((3900 : ℚ) / 2000)) = "2" ∧
    (ytickLabels 3900).getLast? ≠ some (toString (round ((3900 : ℚ) / 2000))) := by
  have h1 : (ytickLabels 3900).getLast? = some (toString (pyInt ((3900 : ℚ) / 2000))) := by
    rw [ytickLabels, List.getLast?_concat]
  have h2 : pyInt ((3900 : ℚ) / 2000) = 1 := by
    rw [pyInt, if_pos (by norm_num)]
    norm_num [Int.floor_eq_iff]
  have h3 : round ((3900 : ℚ) / 2000) = 2 := by
    norm_num [round_eq, Int.floor_eq_iff]
  rw [h1, h2, h3]
  refine ⟨rfl, rfl, by decide⟩

/-- C9 (corrected): when `bit_rate` is present the reported value is the
Python float (true) division `bit_rate / 1000` in kb/s — it equals the
spec's integer division exactly when `1000 ∣ bit_rate`; when `bit_rate`
is absent, `bits_per_raw_sample` (bits per sample) is reported instead. -/
theorem bitrate_amended (m : MediaInfo) :
    (∀ r : ℕ, m.bit_rate = some r →
      getBitrateOrBitsPerSample m = RateOrDepth.kbps ((r : ℚ) / 1000) ∧
      (getBitrateOrBitsPerSample m = specBitrateOrBitsPerSample m ↔ 1000 ∣ r)) ∧
    (m.bit_rate = none →
      getBitrateOrBitsPerSample m = RateOrDepth.bit m.bits_per_raw_sample) := by
  constructor
  · intro r h
    refine ⟨by simp [getBitrateOrBitsPerSample, h], ?_⟩
    simp only [getBitrateOrBitsPerSample, specBitrateOrBitsPerSample, h,
      RateOrDepth.kbps.injEq]
    constructor
    · intro he
      have hr : (r : ℚ) = ((r / 1000 : ℕ) : ℚ) * 1000 := by
        rw [div_eq_iff (by norm_num : (1000 : ℚ) ≠ 0)] at he
        exact he
      have hn : r = (r / 1000) * 1000 := by exact_mod_cast hr
      exact ⟨r / 1000, by omega⟩
    · rintro ⟨c, rfl⟩
      rw [Nat.mul_div_cancel_left c (by norm_num : 0 < 1000)]
      push_cast
      ring
  · intro h
    simp [getBitrateOrBitsPerSample, h]

/-- Witness for C9 at a stream with `bit_rate = 320000`. -/
theorem bitrate_witness :
    ({ codec_long_name := none, bit_rate := some 320000, bits_per_raw_sample := none,
       channel_layout := none, sample_rate := none, duration := none } : MediaInfo).bit_rate
        = some 320000 ∧
    (getBitrateOrBitsPerSample
        { codec_long_name := none, bit_rate := some 320000, bits_per_raw_sample := none,
          channel_layout := none, sample_rate := none, duration := none } =
      RateOrDepth.kbps ((320000 : ℚ) / 1000) ∧
    (getBitrateOrBitsPerSample
        { codec_long_name := none, bit_rate := some 320000, bits_per_raw_sample := none,
          channel_layout := none, sample_rate := none, duration := none } =
      specBitrateOrBitsPerSample
        { codec_long_name := none, bit_rate := some 320000, bits_per_raw_sample := none,
          channel_layout := none, sample_rate := none, duration := none } ↔
      1000 ∣ 320000)) :=
  ⟨rfl, (bitrate_amended _).1 320000 rfl⟩

/-- C9 counterexample: for `bit_rate = 128001` the code reports
`128001 / 1000 = 128.001` kb/s (Python true division), not the integer
division `128` kb/s the claim describes. -/
theorem bitrate_counterexample :
    getBitrateOrBitsPerSample
        { codec_long_name := none, bit_rate := some 128001, bits_per_raw_sample := none,
          channel_layout := none, sample_rate := none, duration := none } ≠
      specBitrateOrBitsPerSample
        { codec_long_name := none, bit_rate := some 128001, bits_per_raw_sample := none,
          channel_layout := none, sample_rate := none, duration := none } := by
  simp only [getBitrateOrBitsPerSample, specBitrateOrBitsPerSample, ne_eq,
    RateOrDepth.kbps.injEq]
  norm_num

theorem le_foldl_max {α : Type} [LinearOrder α] (l : List α) (a : α) :
    a ≤ l.foldl max a := by
  induction l generalizing a with
  | nil => exact le_rfl
  | cons x xs ih => exact le_trans (le_max_left a x) (ih (max a x))

theorem mem_le_foldl_max {α : Type} [LinearOrder α] :
    ∀ (l : List α) (a x : α), x ∈ l → x ≤ l.foldl max a
  | [], _, x, hx => absurd hx (List.not_mem_nil x)
  | y :: ys, a, x, hx => by
    rcases List.mem_cons.mp hx with rfl | hmem
    · exact le_trans (le_max_right a x) (le_foldl_max ys (max a x))
    · exact mem_le_foldl_max ys (max a y) x hmem

theorem foldl_max_le {α : Type} [LinearOrder α] :
    ∀ (l : List α) (a c : α), a ≤ c → (∀ x ∈ l, x ≤ c) → l.foldl max a ≤ c
  | [], _, _, ha, _ => ha
  | y :: ys, a, c, ha, hl => by
    refine foldl_max_le ys (max a y) c (max_le ha (hl y (List.mem_cons_self y ys))) ?_
    intro x hx
    exact hl x (List.mem_cons_of_mem y hx)

theorem foldl_max_mem {α : Type} [LinearOrder α] :
    ∀ (l : List α) (a : α), l.foldl max a = a ∨ l.foldl max a ∈ l
  | [], _ => Or.inl rfl
  | y :: ys, a => by
    rcases foldl_max_mem ys (max a y) with h | h
    · rcases max_choice a y with hc | hc
      · exact Or.inl (by rw [List.foldl_cons, h, hc])
      · refine Or.inr ?_
        rw [List.foldl_cons, h, hc]
        exact List.mem_cons_self y ys
    · exact Or.inr (List.mem_cons_of_mem y h)

theorem le_npMax_of_mem {l : List ℝ} {x : ℝ} (hx : x ∈ l) : x ≤ npMax l :=
  mem_le_foldl_max l (l.headD 0) x hx

theorem npMax_mem {l : List ℝ} (h : l ≠ []) : npMax l ∈ l := by
  rcases foldl_max_mem l (l.headD 0) with he | hm
  · rw [npMax, he]
    cases l with
    | nil => exact absurd rfl h
    | cons y ys => simp
  · exact hm

theorem npMax_eq_zero {l : List ℝ} (h0 : (0 : ℝ) ∈ l) (hle : ∀ x ∈ l, x ≤ 0) :
    npMax l = 0 := by
  refine le_antisymm ?_ (le_npMax_of_mem h0)
  refine foldl_max_le l (l.headD 0) 0 ?_ hle
  cases l with
  | nil => simp at h0
  | cons y ys => simpa using hle y (List.mem_cons_self y ys)

/-- C4 (corrected): for any nonempty magnitude matrix — in particular
the stft of any non-silent buffer — the decibel matrix produced by
`amplitude_to_db` has maximum exactly 0 dB (the reference is the matrix
maximum, and the `amin` floor keeps the top entry at 0), and every
value lies in `[-80, 0]`: librosa's `top_db` default clamps 80 dB below
the maximum, not at the claimed −120 dB (so `min ≥ -120` does hold, but
only because the actual floor is the tighter −80). -/
theorem decibel_range_amended (S : List (List ℝ)) (h : S.flatten ≠ []) :
    npMax (amplitude_to_db S).flatten = 0 ∧
    ∀ x ∈ (amplitude_to_db S).flatten, -80 ≤ x ∧ x ≤ 0 := by
  have hamin : (0 : ℝ) < amin := by rw [amin]; norm_num
  have hub : ∀ x ∈ S.flatten, x ≤ npMax S.flatten := fun x hx => le_npMax_of_mem hx
  have hdb_le : ∀ x ∈ S.flatten, dbOf (npMax S.flatten) x ≤ 0 := by
    intro x hx
    rw [dbOf, sub_nonpos]
    have hxpos : (0 : ℝ) < max amin x := lt_max_of_lt_left hamin
    exact mul_le_mul_of_nonneg_left
      (Real.logb_le_logb_of_le (by norm_num) hxpos (max_le_max le_rfl (hub x hx)))
      (by norm_num)
  have hdbM : dbOf (npMax S.flatten) (npMax S.flatten) = 0 := sub_self _
  have hLflat : (S.map fun row => row.map (dbOf (npMax S.flatten))).flatten
      = S.flatten.map (dbOf (npMax S.flatten)) := (List.map_flatten _ _).symm
  have hm0 : npMax (S.flatten.map (dbOf (npMax S.flatten))) = 0 := by
    refine npMax_eq_zero (List.mem_map.mpr ⟨npMax S.flatten, npMax_mem h, hdbM⟩) ?_
    intro x hx
    obtain ⟨y, hy, rfl⟩ := List.mem_map.mp hx
    exact hdb_le y hy
  have key : (amplitude_to_db S).flatten =
      (S.flatten.map (dbOf (npMax S.flatten))).map fun x =>
        max x (npMax (S.flatten.map (dbOf (npMax S.flatten))) - 80) := by
    simp only [amplitude_to_db]
    rw [← List.map_flatten, hLflat]
  constructor
  · rw [key, hm0]
    refine npMax_eq_zero ?_ ?_
    · refine List.mem_map.mpr ⟨dbOf (npMax S.flatten) (npMax S.flatten), ?_, ?_⟩
      · exact List.mem_map.mpr ⟨npMax S.flatten, npMax_mem h, rfl⟩
      · rw [hdbM]
        norm_num
    · intro x hx
      obtain ⟨y, hy, rfl⟩ := List.mem_map.mp hx
      obtain ⟨z, hz, rfl⟩ := List.mem_map.mp hy
      exact max_le (hdb_le z hz) (by norm_num)
  · intro x hx
    rw [key, hm0] at hx
    obtain ⟨y, hy, rfl⟩ := List.mem_map.mp hx
    obtain ⟨z, hz, rfl⟩ := List.mem_map.mp hy
    constructor
    · exact le_trans (by norm_num) (le_max_right _ _)
    · exact max_le (hdb_le z hz) (by norm_num)

/-- Witness for C4 at the matrix `[[1]]`. -/
theorem decibel_range_witness :
    ([[(1 : ℝ)]] : List (List ℝ)).flatten ≠ [] ∧
    (npMax (amplitude_to_db [[(1 : ℝ)]]).flatten = 0 ∧
      ∀ x ∈ (amplitude_to_db [[(1 : ℝ)]]).flatten, -80 ≤ x ∧ x ≤ 0) :=
  ⟨by simp, decibel_range_amended [[(1 : ℝ)]] (by simp)⟩

theorem logb_ten_small : Real.logb 10 ((1 : ℝ) / 100000) = -5 := by
  have h : ((1 : ℝ) / 100000) = ((10 : ℝ) ^ (5 : ℕ))⁻¹ := by norm_num
  rw [h, Real.logb_inv, Real.logb_pow, Real.logb_self_eq_one (by norm_num)]
  norm_num

theorem npMax_pair : npMax [(1 : ℝ), 1 / 100000] = 1 := by
  simp only [npMax, List.headD_cons, List.foldl]
  rw [max_self, max_eq_left (by norm_num : (1 : ℝ) / 100000 ≤ 1)]

theorem dbOf_one_one : dbOf 1 (1 : ℝ) = 0 := sub_self _

theorem dbOf_zero_zero : dbOf 0 (0 : ℝ) = 0 := sub_self _

theorem dbOf_one_small : dbOf 1 ((1 : ℝ) / 100000) = -100 := by
  rw [dbOf]
  rw [show max amin ((1 : ℝ) / 100000) = 1 / 100000 by rw [amin]; exact max_self _]
  rw [show max amin (1 : ℝ) = 1 by rw [amin]; exact max_eq_right (by norm_num)]
  rw [logb_ten_small, Real.logb_one]
  norm_num

theorem amplitude_to_db_ce :
    amplitude_to_db [[(1 : ℝ), 1 / 100000]] = [[0, -80]] := by
  have hflat : ([[(1 : ℝ), 1 / 100000]] : List (List ℝ)).flatten = [1, 1 / 100000] := by
    simp
  simp only [amplitude_to_db, hflat, npMax_pair, List.map_cons, List.map_nil,
    dbOf_one_one, dbOf_one_small]
  have h3 : npMax [(0 : ℝ), -100] = 0 := by
    simp only [npMax, List.headD_cons, List.foldl]
    rw [max_self]
    exact max_eq_left (by norm_num)
  simp only [List.flatten_cons, List.flatten_nil, List.append_nil, h3]
  rw [show (0 : ℝ) - 80 = -80 by norm_num, max_eq_left (by norm_num),
    max_eq_right (by norm_num)]

theorem specDecibelMatrix_ce :
    specDecibelMatrix [[(1 : ℝ), 1 / 100000]] = [[0, -100]] := by
  have hflat : ([[(1 : ℝ), 1 / 100000]] : List (List ℝ)).flatten = [1, 1 / 100000] := by
    simp
  simp only [specDecibelMatrix, hflat, npMax_pair, List.map_cons, List.map_nil]
  rw [div_one, div_one, Real.logb_one, logb_ten_small]
  rw [show (20 : ℝ) * 0 = 0 by norm_num, min_self,
    max_eq_right (by norm_num : (-120 : ℝ) ≤ 0)]
  rw [show (20 : ℝ) * -5 = -100 by norm_num,
    min_eq_right (by norm_num : (-100 : ℝ) ≤ 0),
    max_eq_right (by norm_num : (-120 : ℝ) ≤ -100)]

/-- C4 counterexample: the matrix `[[1, 1e-5]]` has a raw decibel value
of −100 at its second entry; a clamp to the claimed display range
[−120, 0] would leave it at −100, but `amplitude_to_db` floors it at
−80 (`top_db = 80` below the maximum), so the produced matrix is not
the [−120, 0]-clamped conversion the claim describes. -/
theorem decibel_clamp_counterexample :
    amplitude_to_db [[(1 : ℝ), 1 / 100000]] = [[0, -80]] ∧
    specDecibelMatrix [[(1 : ℝ), 1 / 100000]] = [[0, -100]] ∧
    amplitude_to_db [[(1 : ℝ), 1 / 100000]] ≠
      specDecibelMatrix [[(1 : ℝ), 1 / 100000]] := by
  refine ⟨amplitude_to_db_ce, specDecibelMatrix_ce, ?_⟩
  rw [amplitude_to_db_ce, specDecibelMatrix_ce]
  simp only [ne_eq, List.cons.injEq, and_true, true_and]
  intro hcontra
  norm_num at hcontra

theorem paddedSample_nil (i : ℕ) : paddedSample [] i = 0 := by
  rw [paddedSample]
  split
  · rfl
  · exact List.getD_nil

theorem stftMag_nil (k t : ℕ) : stftMag [] k t = 0 := by
  have hc : ∀ n ∈ Finset.range 2048,
      hannWindow n * paddedSample [] (t * hopLength + n) *
        Real.cos (2 * Real.pi * k * n / 2048) = 0 := by
    intro n _
    rw [paddedSample_nil, mul_zero, zero_mul]
  have hs : ∀ n ∈ Finset.range 2048,
      hannWindow n * paddedSample [] (t * hopLength + n) *
        Real.sin (2 * Real.pi * k * n / 2048) = 0 := by
    intro n _
    rw [paddedSample_nil, mul_zero, zero_mul]
  rw [stftMag, Finset.sum_eq_zero hc, Finset.sum_eq_zero hs]
  norm_num

theorem stftMatrix_nil : stftMatrix [] = List.replicate 1025 [(0 : ℝ)] := by
  rw [stftMatrix]
  have hone : ∀ k : ℕ, ((List.range (stftNumFrames (List.length ([] : List ℝ)))).map
      fun t => stftMag [] k t) = [(0 : ℝ)] := by
    intro k
    have : stftNumFrames (List.length ([] : List ℝ)) = 1 := rfl
    rw [this, show List.range 1 = [0] from rfl, List.map_cons, List.map_nil, stftMag_nil]
  calc (List.range 1025).map (fun k => (List.range (stftNumFrames
        (List.length ([] : List ℝ)))).map fun t => stftMag [] k t)
      = (List.range 1025).map fun _ => [(0 : ℝ)] :=
        List.map_congr_left fun k _ => hone k
    _ = List.replicate 1025 [(0 : ℝ)] := by
        simp

theorem flatten_replicate_singleton (n : ℕ) (a : ℝ) :
    (List.replicate n [a]).flatten = List.replicate n a := by
  induction n with
  | zero => rfl
  | succ m ih => simp [List.replicate_succ, ih]

theorem amplitude_to_db_zeros :
    amplitude_to_db (List.replicate 1025 [(0 : ℝ)]) = List.replicate 1025 [0] := by
  have hflat : (List.replicate 1025 [(0 : ℝ)]).flatten = List.replicate 1025 0 :=
    flatten_replicate_singleton _ _
  have hmax : npMax (List.replicate 1025 (0 : ℝ)) = 0 := by
    refine npMax_eq_zero (List.mem_replicate.mpr ⟨by norm_num, rfl⟩) ?_
    intro x hx
    rw [List.eq_of_mem_replicate hx]
  simp only [amplitude_to_db, hflat, hmax, List.map_replicate, List.map_cons,
    List.map_nil, dbOf_zero_zero, flatten_replicate_singleton]
  rw [show (0 : ℝ) - 80 = -80 by norm_num, max_eq_left (by norm_num)]

theorem compute_nil : compute [] = List.replicate 1025 [(0 : ℝ)] := by
  rw [compute, stftMatrix_nil, amplitude_to_db_zeros]

/-- C5 (corrected): the empty buffer is a legal input and its
spectrogram contains no NaN/Inf — every entry of `compute []` is
exactly 0 dB — but because `librosa.stft` center-pads the signal with
`n_fft/2` zeros on each side, the result has one time frame, not zero:
it is the 1025 × 1 zero matrix. -/
theorem empty_buffer_amended :
    compute [] = List.replicate 1025 [(0 : ℝ)] ∧ stftNumFrames 0 = 1 :=
  ⟨compute_nil, rfl⟩

/-- C5 counterexample: the first row of `compute []` has one column,
so the matrix of the empty buffer does not have 0 time frames. -/
theorem empty_buffer_counterexample :
    ((compute []).headD []).length = 1 ∧ ((compute []).headD []).length ≠ 0 := by
  rw [compute_nil, show (1025 : ℕ) = 1024 + 1 from rfl, List.replicate_succ,
    List.headD_cons]
  exact ⟨rfl, Nat.one_ne_zero⟩
